import Mathlib

/-!
Verification development for the parity-bridges-common message lane code.

The definitions below are a shallow embedding of the Rust sources:
- `relays/substrate/src/messages_source.rs` (the Substrate messages source
  client of the relay loop),
- `modules/shift-session-manager/src/lib.rs` (the shift session manager
  pallet),
- `modules/message-lane/src/mock.rs` (the message lane test runtime, its
  capability-policy mock implementations and constants).

External collaborators (the RPC `Client`, the `SubstrateMessageLane`
configuration trait, SCALE decoders for chain-generic types) are modelled as
explicit records of response oracles and decoder functions; each relay
operation additionally returns the ordered list of client calls it issued, so
that statements such as "the query is executed at exactly this block hash"
are expressible about the produced call trace.
-/

/-- Byte strings (`Vec<u8>` / `Bytes`), modelled as lists of naturals. -/
abbrev Bytes := List Nat

/-- Errors of the substrate relay client (`relay_substrate_client::Error`),
restricted to the variants the embedded code can produce or propagate. -/
inductive SubstrateError where
  | ResponseParseFailed : SubstrateError
  | Custom (message : String) : SubstrateError
  | Connection : SubstrateError
  deriving DecidableEq, Repr

/-- `relay_utils::HeaderId(Number, Hash)`: a block number / block hash pair. -/
structure HeaderId (Hash Number : Type) where
  number : Number
  hash : Hash
  deriving DecidableEq, Repr

/-- Chain header, exposing the one accessor the embedded code uses
(`HeaderT::number`). -/
structure ChainHeader where
  number : Nat
  deriving DecidableEq, Repr

/-- `message_lane_loop::ClientState`: own best finalized header id plus the
best finalized peer header id known to this chain. -/
structure ClientState (SelfId PeerId : Type) where
  best_self : SelfId
  best_peer : PeerId
  deriving DecidableEq, Repr

/-- `bp_message_lane::LaneId = [u8; 4]`. -/
structure LaneId where
  b0 : Nat
  b1 : Nat
  b2 : Nat
  b3 : Nat
  deriving DecidableEq, Repr

/-- SCALE encoding of a `[u8; 4]` lane id: exactly its four bytes, no length
prefix. -/
def LaneId.encode (l : LaneId) : Bytes := [l.b0, l.b1, l.b2, l.b3]

/-- `bp_runtime::InstanceId = [u8; 4]`, kept as opaque bytes. -/
abbrev InstanceId := Bytes

/-- `sp_trie::StorageProof`: a collection of trie nodes, kept opaque. -/
abbrev StorageProof := List Bytes

/-- SCALE encoding of a `u64`: eight bytes, little endian. -/
def encode_u64 (n : Nat) : Bytes :=
  (List.range 8).map (fun i => n / 256 ^ i % 256)

/-- Little-endian value of (the first eight bytes of) a byte string. -/
def leU64 (b : Bytes) : Nat :=
  (b.take 8).reverse.foldl (fun acc x => acc * 256 + x) 0

/-- SCALE decoding of a `u64` (`MessageNonce`): reads exactly eight bytes,
fails when fewer are available; trailing bytes are ignored. -/
def decode_u64 (b : Bytes) : Option Nat :=
  if 8 ≤ b.length then some (leU64 b) else none

/-- One RPC call issued by the source client, with all its arguments. -/
inductive Call where
  | bestFinalizedHeaderHash : Call
  | headerByHash (h : Nat) : Call
  | stateCall (method : String) (args : Bytes) (atBlock : Option Nat) : Call
  | proveMessages (bridgeInstance : InstanceId) (lane : LaneId)
      (beginNonce endNonce : Nat) (outboundState : Bool) (atBlock : Nat) : Call
  | submitExtrinsic (tx : Bytes) : Call
  deriving DecidableEq, Repr

/-- The RPC client (`relay_substrate_client::Client`), modelled as a record of
response oracles: each field gives the node's response to one kind of call.
Hashes and numbers are `Nat`. -/
structure Client where
  best_finalized_header_hash : Except SubstrateError Nat
  header_by_hash : Nat → Except SubstrateError ChainHeader
  state_call : String → Bytes → Option Nat → Except SubstrateError Bytes
  prove_messages_q : InstanceId → LaneId → Nat → Nat → Bool → Nat →
    Except SubstrateError StorageProof
  submit_extrinsic : Bytes → Except SubstrateError Unit

/-- The `SubstrateMessageLane` configuration (`P`) of the source client: the
fixed method-name string constants plus the receiving-proof transaction maker
and the SCALE encoder of the produced transaction. -/
structure MessageLaneParams where
  BEST_FINALIZED_TARGET_HEADER_ID_AT_SOURCE : String
  OUTBOUND_LANE_LATEST_GENERATED_NONCE_METHOD : String
  OUTBOUND_LANE_LATEST_RECEIVED_NONCE_METHOD : String
  OUTBOUND_LANE_MESSAGES_DISPATCH_WEIGHT_METHOD : String
  make_messages_receiving_proof_transaction :
    HeaderId Nat Nat → Bytes → Except SubstrateError Bytes
  encodeTx : Bytes → Bytes

/-- `SubstrateMessagesSource`: the Substrate client as messages source. -/
structure SubstrateMessagesSource where
  client : Client
  lane : MessageLaneParams
  lane_id : LaneId
  bridgeInstance : InstanceId

/-- `message_lane_loop::MessageProofParameters`. -/
structure MessageProofParameters where
  outbound_state_proof_required : Bool
  dispatch_weight : Nat
  deriving DecidableEq, Repr

/-- The message proof type `SubstrateMessagesProof<C>`:
`(Weight, (HashOf<C>, StorageProof, LaneId, MessageNonce, MessageNonce))`. -/
abbrev SubstrateMessagesProof :=
  Nat × (Nat × StorageProof × LaneId × Nat × Nat)

/-- `read_client_state`: read own best finalized header hash, then the header
itself, then state-call the given best-finalized-peer-header method at that
hash and decode the response as a (number, hash) pair. Returns the call trace
together with the result; `decodePair` stands for the SCALE `Decode` instance
of the chain-generic `(BridgedHeaderNumber, BridgedHeaderHash)` pair. -/
def read_client_state (decodePair : Bytes → Option (Nat × Nat)) (c : Client)
    (best_finalized_header_id_method_name : String) :
    List Call × Except SubstrateError (ClientState (HeaderId Nat Nat) (HeaderId Nat Nat)) :=
  match c.best_finalized_header_hash with
  | .error e => ([.bestFinalizedHeaderHash], .error e)
  | .ok self_best_finalized_header_hash =>
    match c.header_by_hash self_best_finalized_header_hash with
    | .error e =>
      ([.bestFinalizedHeaderHash, .headerByHash self_best_finalized_header_hash], .error e)
    | .ok self_best_finalized_header =>
      let trace : List Call :=
        [.bestFinalizedHeaderHash, .headerByHash self_best_finalized_header_hash,
          .stateCall best_finalized_header_id_method_name []
            (some self_best_finalized_header_hash)]
      match c.state_call best_finalized_header_id_method_name []
          (some self_best_finalized_header_hash) with
      | .error e => (trace, .error e)
      | .ok encoded_best_finalized_peer_on_self =>
        match decodePair encoded_best_finalized_peer_on_self with
        | none => (trace, .error .ResponseParseFailed)
        | some decoded_best_finalized_peer_on_self =>
          (trace, .ok
            { best_self := ⟨self_best_finalized_header.number, self_best_finalized_header_hash⟩
              best_peer := ⟨decoded_best_finalized_peer_on_self.1,
                decoded_best_finalized_peer_on_self.2⟩ })

/-- `SubstrateMessagesSource::reconnect`: reconnect the inner client, keeping
lane, lane id and instance; `reconnectClient` stands for the external
`Client::reconnect`. -/
def SubstrateMessagesSource.reconnect
    (reconnectClient : Client → Except SubstrateError Client)
    (s : SubstrateMessagesSource) : Except SubstrateError SubstrateMessagesSource :=
  match reconnectClient s.client with
  | .error e => .error e
  | .ok new_client => .ok { s with client := new_client }

/-- `SubstrateMessagesSource::latest_generated_nonce`: state-call the
outbound-lane latest-generated-nonce method with the encoded lane id at the
given header id's hash, and decode the response as a `MessageNonce`. -/
def SubstrateMessagesSource.latest_generated_nonce (s : SubstrateMessagesSource)
    (id : HeaderId Nat Nat) :
    List Call × Except SubstrateError (HeaderId Nat Nat × Nat) :=
  let trace : List Call :=
    [.stateCall s.lane.OUTBOUND_LANE_LATEST_GENERATED_NONCE_METHOD
      s.lane_id.encode (some id.hash)]
  match s.client.state_call s.lane.OUTBOUND_LANE_LATEST_GENERATED_NONCE_METHOD
      s.lane_id.encode (some id.hash) with
  | .error e => (trace, .error e)
  | .ok encoded_response =>
    match decode_u64 encoded_response with
    | none => (trace, .error .ResponseParseFailed)
    | some latest_generated_nonce => (trace, .ok (id, latest_generated_nonce))

/-- `SubstrateMessagesSource::latest_confirmed_received_nonce`: state-call the
outbound-lane latest-received-nonce method with the encoded lane id at the
given header id's hash, and decode the response as a `MessageNonce`. -/
def SubstrateMessagesSource.latest_confirmed_received_nonce (s : SubstrateMessagesSource)
    (id : HeaderId Nat Nat) :
    List Call × Except SubstrateError (HeaderId Nat Nat × Nat) :=
  let trace : List Call :=
    [.stateCall s.lane.OUTBOUND_LANE_LATEST_RECEIVED_NONCE_METHOD
      s.lane_id.encode (some id.hash)]
  match s.client.state_call s.lane.OUTBOUND_LANE_LATEST_RECEIVED_NONCE_METHOD
      s.lane_id.encode (some id.hash) with
  | .error e => (trace, .error e)
  | .ok encoded_response =>
    match decode_u64 encoded_response with
    | none => (trace, .error .ResponseParseFailed)
    | some latest_received_nonce => (trace, .ok (id, latest_received_nonce))

/-- The nonce-sequencing loop of `generated_messages_weights`: walk the decoded
(nonce, weight) pairs, erroring on the first nonce that differs from the
expected one, and otherwise accumulating the weights map (a `BTreeMap` whose
keys arrive in strictly increasing order, hence an ordered association list). -/
def weights_loop (expected_nonce : Nat) (weights_map : List (Nat × Nat)) :
    List (Nat × Nat) → Except SubstrateError (List (Nat × Nat))
  | [] => .ok weights_map
  | (nonce, weight) :: rest =>
    if nonce ≠ expected_nonce then
      .error (.Custom
        ("Unexpected nonce in messages_dispatch_weight call result. Expected "
          ++ toString expected_nonce ++ ", got " ++ toString nonce))
    else
      weights_loop (expected_nonce + 1) (weights_map ++ [(nonce, weight)]) rest

/-- `SubstrateMessagesSource::generated_messages_weights`: state-call the
dispatch-weight method with the encoded (lane id, range start, range end)
tuple at the given header id's hash, decode a vector of (nonce, weight) pairs
(`decodeWeights` stands for the SCALE `Decode` instance of
`Vec<(MessageNonce, Weight)>`), and run the nonce-sequencing loop starting at
the range's start. -/
def SubstrateMessagesSource.generated_messages_weights
    (decodeWeights : Bytes → Option (List (Nat × Nat)))
    (s : SubstrateMessagesSource) (id : HeaderId Nat Nat)
    (nonces_begin nonces_end : Nat) :
    List Call × Except SubstrateError (List (Nat × Nat)) :=
  let args : Bytes := s.lane_id.encode ++ encode_u64 nonces_begin ++ encode_u64 nonces_end
  let trace : List Call :=
    [.stateCall s.lane.OUTBOUND_LANE_MESSAGES_DISPATCH_WEIGHT_METHOD args (some id.hash)]
  match s.client.state_call s.lane.OUTBOUND_LANE_MESSAGES_DISPATCH_WEIGHT_METHOD
      args (some id.hash) with
  | .error e => (trace, .error e)
  | .ok encoded_response =>
    match decodeWeights encoded_response with
    | none => (trace, .error .ResponseParseFailed)
    | some weights => (trace, weights_loop nonces_begin [] weights)

/-- `SubstrateMessagesSource::prove_messages`: ask the node for a storage proof
of the given nonce range at the given header id's hash, then bundle it as
`(dispatch_weight, (header hash, proof, lane id, range start, range end))`,
returned together with the header id and the range. -/
def SubstrateMessagesSource.prove_messages (s : SubstrateMessagesSource)
    (id : HeaderId Nat Nat) (nonces_begin nonces_end : Nat)
    (proof_parameters : MessageProofParameters) :
    List Call ×
      Except SubstrateError (HeaderId Nat Nat × (Nat × Nat) × SubstrateMessagesProof) :=
  let trace : List Call :=
    [.proveMessages s.bridgeInstance s.lane_id nonces_begin nonces_end
      proof_parameters.outbound_state_proof_required id.hash]
  match s.client.prove_messages_q s.bridgeInstance s.lane_id nonces_begin nonces_end
      proof_parameters.outbound_state_proof_required id.hash with
  | .error e => (trace, .error e)
  | .ok proof =>
    (trace, .ok (id, (nonces_begin, nonces_end),
      (proof_parameters.dispatch_weight,
        (id.hash, proof, s.lane_id, nonces_begin, nonces_end))))

/-- `SubstrateMessagesSource::submit_messages_receiving_proof`: build the
receiving-proof transaction via the lane configuration, submit its encoding as
an extrinsic, and return unit. -/
def SubstrateMessagesSource.submit_messages_receiving_proof
    (s : SubstrateMessagesSource) (generated_at_block : HeaderId Nat Nat)
    (proof : Bytes) : List Call × Except SubstrateError Unit :=
  match s.lane.make_messages_receiving_proof_transaction generated_at_block proof with
  | .error e => ([], .error e)
  | .ok tx =>
    match s.client.submit_extrinsic (s.lane.encodeTx tx) with
    | .error e => ([.submitExtrinsic (s.lane.encodeTx tx)], .error e)
    | .ok _ => ([.submitExtrinsic (s.lane.encodeTx tx)], .ok ())

/-- `ShiftSessionManager::select_validators`: select `max(1, 2*n/3)` validators
from the available set, starting at offset `session_index % n`, wrapping to the
front of the list when the window runs past the end (the Rust code branches on
`(offset + count).overflowing_sub(n)`: the chained-slices branch is taken when
the subtraction does not borrow and the wrapped end is nonzero). -/
def select_validators {α : Type} (session_index : Nat)
    (available_validators : List α) : List α :=
  let available_validators_count := available_validators.length
  let count := max 1 (2 * available_validators_count / 3)
  let offset := session_index % available_validators_count
  let wrapping_end := offset + count
  if available_validators_count ≤ wrapping_end ∧
      wrapping_end - available_validators_count ≠ 0 then
    available_validators.drop offset ++
      available_validators.take (wrapping_end - available_validators_count)
  else
    (available_validators.drop offset).take count

/-- `ShiftSessionManager::new_session`, with the pallet's storage made
explicit: `stored` is the `InitialValidators` storage item before the call and
`current_validators` is what `pallet_session::Module::validators()` returns.
The result is the returned validator set together with the storage item after
the call (`get().unwrap_or_else(|| put(current); current)`). -/
def new_session {α : Type} (current_validators : List α)
    (stored : Option (List α)) (session_index : Nat) :
    Option (List α) × Option (List α) :=
  if session_index = 0 ∨ session_index = 1 then
    (none, stored)
  else
    match stored with
    | some available_validators =>
      (some (select_validators session_index available_validators),
        some available_validators)
    | none =>
      (some (select_validators session_index current_validators),
        some current_validators)

/-- `mock.rs`: `MaxUnconfirmedMessagesAtInboundLane = 16`. -/
def MaxUnconfirmedMessagesAtInboundLane : Nat := 16

/-- Outbound lane bookkeeping: highest nonce ever appended and highest nonce
confirmed received by the target chain. -/
structure OutboundLaneData where
  latest_generated_nonce : Nat
  latest_received_nonce : Nat
  deriving DecidableEq, Repr

/-- Admission error of `append`. -/
inductive LaneError where
  | AdmissionRejected : LaneError
  deriving DecidableEq, Repr

/-- Modelled from the spec: the outbound lane `append` operation (the message
lane module body is not among the embedded sources, only its mock runtime is).
Per the spec, `append` runs the capability policy's message verifier and
fee-payment hook, and rejects when the number of unconfirmed messages
(`latest_generated_nonce - latest_received_nonce`) would exceed the configured
bound; on success it assigns nonce `latest_generated_nonce + 1` and increments
`latest_generated_nonce`. -/
def append (bound : Nat) (verifier_ok payment_ok : Bool)
    (lane : OutboundLaneData) : Except LaneError (OutboundLaneData × Nat) :=
  if verifier_ok = false ∨ payment_ok = false then
    .error .AdmissionRejected
  else if bound < lane.latest_generated_nonce + 1 - lane.latest_received_nonce then
    .error .AdmissionRejected
  else
    .ok ({ lane with latest_generated_nonce := lane.latest_generated_nonce + 1 },
      lane.latest_generated_nonce + 1)

/-- Repeatedly `append` (with passing verifier and payment policies) starting
from the given lane state, collecting each call's result; a failed append
leaves the lane state unchanged for the subsequent calls. -/
def append_results (bound : Nat) (lane : OutboundLaneData) :
    Nat → List (Except LaneError Nat)
  | 0 => []
  | k + 1 =>
    match append bound true true lane with
    | .error e => .error e :: append_results bound lane k
    | .ok (lane2, nonce) => .ok nonce :: append_results bound lane2 k

/-- `bp_message_lane::MessageKey`: (lane id, nonce). -/
structure MessageKey where
  lane_id : LaneId
  nonce : Nat
  deriving DecidableEq, Repr

/-- `bp_message_lane::MessageData<TestMessageFee>`: payload bytes and fee. -/
structure MessageData where
  payload : Bytes
  fee : Nat
  deriving DecidableEq, Repr

/-- `bp_message_lane::Message<TestMessageFee>`. -/
structure Message where
  key : MessageKey
  data : MessageData
  deriving DecidableEq, Repr

/-- `bp_message_lane::target_chain::ProvedLaneMessages`: optional outbound
lane state plus the lane's proved messages (default: no state, no messages). -/
structure ProvedLaneMessages where
  lane_state : Option OutboundLaneData
  messages : List Message
  deriving DecidableEq, Repr

/-- Strict lexicographic order on `[u8; 4]` lane ids (the `Ord` instance a
`BTreeMap<LaneId, _>` sorts by). -/
def LaneId.lt (a b : LaneId) : Prop :=
  a.b0 < b.b0 ∨ (a.b0 = b.b0 ∧ (a.b1 < b.b1 ∨ (a.b1 = b.b1 ∧
    (a.b2 < b.b2 ∨ (a.b2 = b.b2 ∧ a.b3 < b.b3)))))

instance (a b : LaneId) : Decidable (LaneId.lt a b) := by
  unfold LaneId.lt
  infer_instance

/-- One step of the `BTreeMap` grouping in the mock `TestMessagesProof`
construction: `entry(lane).or_default().messages.push(message)` on a map
represented as an association list sorted by lane id. -/
def addToLane (m : Message) : List (LaneId × ProvedLaneMessages) →
    List (LaneId × ProvedLaneMessages)
  | [] => [(m.key.lane_id, ⟨none, [m]⟩)]
  | (l, plm) :: rest =>
    if m.key.lane_id = l then
      (l, ⟨plm.lane_state, plm.messages ++ [m]⟩) :: rest
    else if LaneId.lt m.key.lane_id l then
      (m.key.lane_id, ⟨none, [m]⟩) :: (l, plm) :: rest
    else
      (l, plm) :: addToLane m rest

/-- The `From<Result<Vec<Message>, ()>>` grouping for `TestMessagesProof`:
insert every message into a `BTreeMap<LaneId, ProvedLaneMessages<Message>>`
keyed by its lane, then iterate the map in key order into a vector. -/
def groupByLane (messages : List Message) : List (LaneId × ProvedLaneMessages) :=
  messages.foldl (fun acc m => addToLane m acc) []

/-- `BTreeMap::insert` on the sorted association-list representation:
replaces the value at an existing key, otherwise inserts at the sorted
position. -/
def btreeInsert (k : LaneId) (v : ProvedLaneMessages) :
    List (LaneId × ProvedLaneMessages) → List (LaneId × ProvedLaneMessages)
  | [] => [(k, v)]
  | (k2, v2) :: rest =>
    if k = k2 then (k, v) :: rest
    else if LaneId.lt k k2 then (k, v) :: (k2, v2) :: rest
    else (k2, v2) :: btreeInsert k v rest

/-- `Vec::into_iter().collect::<BTreeMap<_, _>>()`: insert the pairs left to
right. -/
def btreeFromList (v : List (LaneId × ProvedLaneMessages)) :
    List (LaneId × ProvedLaneMessages) :=
  v.foldl (fun acc kv => btreeInsert kv.1 kv.2 acc) []

/-- `BTreeMap` lookup (leftmost entry of the association list). -/
def lookupLane (l : LaneId) : List (LaneId × ProvedLaneMessages) →
    Option ProvedLaneMessages
  | [] => none
  | (k, v) :: rest => if k = l then some v else lookupLane l rest

/-- Rightmost-entry lookup: the value the last `insert` for a key left behind.
Used to relate a left-to-right `collect` to the association list it came
from. -/
def lookupLaneR (l : LaneId) : List (LaneId × ProvedLaneMessages) →
    Option ProvedLaneMessages
  | [] => none
  | (k, v) :: rest =>
    match lookupLaneR l rest with
    | some w => some w
    | none => if k = l then some v else none

/-- `mock.rs`: the error string returned by all test policy implementations. -/
def TEST_ERROR : String := "Test error"

/-- `mock.rs`: the lane id used in tests. -/
def TEST_LANE_ID : LaneId := ⟨0, 0, 0, 1⟩

/-- `mock.rs` `TestMessagesProof`: a proof embedding its own verification
result — either the per-lane message vector or a unit error. -/
structure TestMessagesProof where
  result : Except Unit (List (LaneId × ProvedLaneMessages))
  deriving Repr

/-- The `From<Result<Vec<Message<TestMessageFee>>, ()>>` conversion for
`TestMessagesProof`: on `Ok`, group the messages per lane (in a `BTreeMap`,
iterated in key order); an `Err` is kept as is. -/
def testMessagesProofFrom (result : Except Unit (List Message)) :
    TestMessagesProof :=
  match result with
  | .ok messages => ⟨.ok (groupByLane messages)⟩
  | .error e => ⟨.error e⟩

/-- `mock.rs` `TestSourceHeaderChain::verify_messages_proof`: collect the
embedded per-lane vector into a `BTreeMap` on `Ok`, return `TEST_ERROR` on
`Err`. -/
def TestSourceHeaderChain.verify_messages_proof (proof : TestMessagesProof) :
    Except String (List (LaneId × ProvedLaneMessages)) :=
  match proof.result with
  | .ok v => .ok (btreeFromList v)
  | .error _ => .error TEST_ERROR

/-- Keys of a lane map are strictly sorted (hence distinct). -/
abbrev SortedKeys (xs : List (LaneId × ProvedLaneMessages)) : Prop :=
  xs.Pairwise (fun a b => LaneId.lt a.1 b.1)

/-- Appending messages to an optional lane entry (`None` becomes a fresh
default entry when at least one message arrives). -/
def extendLane (o : Option ProvedLaneMessages) (ms : List Message) :
    Option ProvedLaneMessages :=
  match o, ms with
  | none, [] => none
  | none, ms => some ⟨none, ms⟩
  | some plm, ms => some ⟨plm.lane_state, plm.messages ++ ms⟩

/-- Push one message onto an optional lane entry (`entry(..).or_default()`
followed by `messages.push`). -/
def pushLane (o : Option ProvedLaneMessages) (m : Message) : ProvedLaneMessages :=
  match o with
  | some plm => ⟨plm.lane_state, plm.messages ++ [m]⟩
  | none => ⟨none, [m]⟩

/-- A concrete RPC client used to instantiate the relay theorems: best
finalized hash 5, headers numbered hash + 95, every state call answered with
the SCALE bytes of the `u64` value 1. -/
def sampleClient : Client where
  best_finalized_header_hash := .ok 5
  header_by_hash := fun h => .ok ⟨h + 95⟩
  state_call := fun _ _ _ => .ok [1, 0, 0, 0, 0, 0, 0, 0]
  prove_messages_q := fun _ _ _ _ _ _ => .ok [[7]]
  submit_extrinsic := fun _ => .ok ()

/-- A concrete lane configuration used to instantiate the relay theorems. -/
def sampleLaneParams : MessageLaneParams where
  BEST_FINALIZED_TARGET_HEADER_ID_AT_SOURCE := "TargetHeaderApi_best_finalized"
  OUTBOUND_LANE_LATEST_GENERATED_NONCE_METHOD := "OutboundLaneApi_latest_generated_nonce"
  OUTBOUND_LANE_LATEST_RECEIVED_NONCE_METHOD := "OutboundLaneApi_latest_received_nonce"
  OUTBOUND_LANE_MESSAGES_DISPATCH_WEIGHT_METHOD := "OutboundLaneApi_messages_dispatch_weight"
  make_messages_receiving_proof_transaction := fun _ proof => .ok (0 :: proof)
  encodeTx := fun tx => tx

/-- A concrete messages source used to instantiate the relay theorems. -/
def sampleSource : SubstrateMessagesSource where
  client := sampleClient
  lane := sampleLaneParams
  lane_id := TEST_LANE_ID
  bridgeInstance := [0, 0, 0, 0]

/-- A concrete decoder of (peer header number, peer header hash) pairs used to
instantiate the `read_client_state` theorem. -/
def sampleDecodePair : Bytes → Option (Nat × Nat) := fun b => some (b.length, 9)

/-- A concrete decoder of (nonce, weight) vectors used to instantiate the
`generated_messages_weights` theorem: each byte of the response becomes one
pair, with nonces counted from 1. -/
def sampleDecodeWeights : Bytes → Option (List (Nat × Nat)) := fun b =>
  some ((b.take 2).enum.map (fun p => (p.1 + 1, p.2)))

/-- The concrete result `prove_messages` produces on the sample source for the
range 3..=7 at header (10, 5) with dispatch weight 11. -/
def sampleProofResult : HeaderId Nat Nat × (Nat × Nat) × SubstrateMessagesProof :=
  (⟨10, 5⟩, (3, 7), (11, (5, [[7]], TEST_LANE_ID, 3, 7)))

/-- Sample messages (nonces 1 and 2 on the test lane) used to instantiate the
proof-verification theorem. -/
def sampleMessages : List Message :=
  [⟨⟨TEST_LANE_ID, 1⟩, ⟨[0], 1⟩⟩, ⟨⟨TEST_LANE_ID, 2⟩, ⟨[1], 1⟩⟩]

/-- C3: with the configured bound `MaxUnconfirmedMessagesAtInboundLane = 16`,
on a lane with zero confirmations the first 16 `append` calls succeed (with
nonces 1..16) and the 17th fails with `AdmissionRejected`. -/
theorem C3_backpressure :
    append_results MaxUnconfirmedMessagesAtInboundLane ⟨0, 0⟩ 17 =
      [.ok 1, .ok 2, .ok 3, .ok 4, .ok 5, .ok 6, .ok 7, .ok 8, .ok 9, .ok 10,
        .ok 11, .ok 12, .ok 13, .ok 14, .ok 15, .ok 16,
        .error .AdmissionRejected] := rfl

/-- C7: `reconnect` re-establishes the remote handle: on success it returns
the source with the client replaced by the freshly reconnected one and lane,
lane id and instance unchanged; on failure it returns the connection error. -/
theorem C7_reconnect (rc : Client → Except SubstrateError Client)
    (s : SubstrateMessagesSource) :
    (∀ c, rc s.client = .ok c →
      ∃ s2, s.reconnect rc = .ok s2 ∧ s2.client = c ∧ s2.lane = s.lane ∧
        s2.lane_id = s.lane_id ∧ s2.bridgeInstance = s.bridgeInstance) ∧
    (∀ err, rc s.client = .error err → s.reconnect rc = .error err) := by
  constructor
  · intro c hc
    refine ⟨{ s with client := c }, ?_, rfl, rfl, rfl, rfl⟩
    unfold SubstrateMessagesSource.reconnect
    rw [hc]
  · intro err herr
    unfold SubstrateMessagesSource.reconnect
    rw [herr]

/-- Witness for C7, at the identity reconnection on the sample source. -/
theorem C7_reconnect_witness :
    ∃ s2, sampleSource.reconnect (fun c => .ok c) = .ok s2 ∧
      s2.client = sampleSource.client ∧ s2.lane = sampleSource.lane ∧
      s2.lane_id = sampleSource.lane_id ∧
      s2.bridgeInstance = sampleSource.bridgeInstance :=
  (C7_reconnect (fun c => .ok c) sampleSource).1 sampleSource.client rfl

/-- C2: a successful `prove_messages` returns the requested header id and
exactly the requested nonce range, and its proof is
`(dispatch_weight, (header hash of the requested id, storage proof returned by
the node, the configured lane id, range start, range end))`. -/
theorem C2_prove_messages (s : SubstrateMessagesSource) (id : HeaderId Nat Nat)
    (nb nfin : Nat) (pp : MessageProofParameters)
    (res : HeaderId Nat Nat × (Nat × Nat) × SubstrateMessagesProof)
    (hok : (s.prove_messages id nb nfin pp).2 = .ok res) :
    res.1 = id ∧ res.2.1 = (nb, nfin) ∧
    ∃ storage_proof,
      s.client.prove_messages_q s.bridgeInstance s.lane_id nb nfin
        pp.outbound_state_proof_required id.hash = .ok storage_proof ∧
      res.2.2 = (pp.dispatch_weight,
        (id.hash, storage_proof, s.lane_id, nb, nfin)) := by
  unfold SubstrateMessagesSource.prove_messages at hok
  cases hq : s.client.prove_messages_q s.bridgeInstance s.lane_id nb nfin
      pp.outbound_state_proof_required id.hash with
  | error e => rw [hq] at hok; simp at hok
  | ok storage_proof =>
    rw [hq] at hok
    simp only [Except.ok.injEq] at hok
    subst hok
    exact ⟨rfl, rfl, storage_proof, rfl, rfl⟩

/-- Witness for C2, at the sample source for range 3..=7. -/
theorem C2_prove_messages_witness :
    sampleProofResult.1 = (⟨10, 5⟩ : HeaderId Nat Nat) ∧
    sampleProofResult.2.1 = ((3 : Nat), (7 : Nat)) ∧
    ∃ storage_proof,
      sampleSource.client.prove_messages_q sampleSource.bridgeInstance
        sampleSource.lane_id 3 7 false (5 : Nat) = .ok storage_proof ∧
      sampleProofResult.2.2 =
        ((11 : Nat), ((5 : Nat), storage_proof, sampleSource.lane_id, (3 : Nat), (7 : Nat))) :=
  C2_prove_messages sampleSource ⟨10, 5⟩ 3 7 ⟨false, 11⟩ sampleProofResult rfl

/-- C5: `submit_messages_receiving_proof` is fire and forget: it succeeds with
the unit value exactly when both the transaction construction and the
extrinsic submission succeed, and it returns an error exactly when one of the
two returns that error (construction failing first). -/
theorem C5_submit_messages_receiving_proof (s : SubstrateMessagesSource)
    (generated_at_block : HeaderId Nat Nat) (proof : Bytes) :
    ((s.submit_messages_receiving_proof generated_at_block proof).2 = .ok () ↔
      ∃ tx, s.lane.make_messages_receiving_proof_transaction generated_at_block
          proof = .ok tx ∧
        s.client.submit_extrinsic (s.lane.encodeTx tx) = .ok ()) ∧
    (∀ err, (s.submit_messages_receiving_proof generated_at_block proof).2 = .error err ↔
      (s.lane.make_messages_receiving_proof_transaction generated_at_block
          proof = .error err ∨
        ∃ tx, s.lane.make_messages_receiving_proof_transaction generated_at_block
            proof = .ok tx ∧
          s.client.submit_extrinsic (s.lane.encodeTx tx) = .error err)) := by
  unfold SubstrateMessagesSource.submit_messages_receiving_proof
  cases hm : s.lane.make_messages_receiving_proof_transaction generated_at_block proof with
  | error e => simp
  | ok tx =>
    cases hsub : s.client.submit_extrinsic (s.lane.encodeTx tx) with
    | error e2 => simp [hsub]
    | ok u => cases u; simp [hsub]

/-- Witness for C5, at the sample source. -/
theorem C5_submit_messages_receiving_proof_witness :
    ((sampleSource.submit_messages_receiving_proof ⟨1, 2⟩ [3]).2 = .ok () ↔
      ∃ tx, sampleSource.lane.make_messages_receiving_proof_transaction ⟨1, 2⟩
          [3] = .ok tx ∧
        sampleSource.client.submit_extrinsic (sampleSource.lane.encodeTx tx) = .ok ()) ∧
    (∀ err, (sampleSource.submit_messages_receiving_proof ⟨1, 2⟩ [3]).2 = .error err ↔
      (sampleSource.lane.make_messages_receiving_proof_transaction ⟨1, 2⟩
          [3] = .error err ∨
        ∃ tx, sampleSource.lane.make_messages_receiving_proof_transaction ⟨1, 2⟩
            [3] = .ok tx ∧
          sampleSource.client.submit_extrinsic (sampleSource.lane.encodeTx tx) = .error err)) :=
  C5_submit_messages_receiving_proof sampleSource ⟨1, 2⟩ [3]

/-- C1: every successful `read_client_state` call issues exactly three client
calls, in order: read own best finalized header hash, read that header, and
one peer-header state query executed at exactly the best finalized hash (no
query at any other block); the returned state has the read header's
(number, hash) as `best_self` and the decoded (number, hash) response pair as
`best_peer`. -/
theorem C1_read_client_state (decodePair : Bytes → Option (Nat × Nat))
    (c : Client) (m : String)
    (st : ClientState (HeaderId Nat Nat) (HeaderId Nat Nat))
    (hok : (read_client_state decodePair c m).2 = .ok st) :
    ∃ h hdr resp pn ph,
      c.best_finalized_header_hash = .ok h ∧
      c.header_by_hash h = .ok hdr ∧
      c.state_call m [] (some h) = .ok resp ∧
      decodePair resp = some (pn, ph) ∧
      st.best_self = ⟨hdr.number, h⟩ ∧
      st.best_peer = ⟨pn, ph⟩ ∧
      (read_client_state decodePair c m).1 =
        [.bestFinalizedHeaderHash, .headerByHash h, .stateCall m [] (some h)] := by
  unfold read_client_state at hok
  cases hbf : c.best_finalized_header_hash with
  | error e => simp [hbf] at hok
  | ok h =>
    simp only [hbf] at hok
    cases hhdr : c.header_by_hash h with
    | error e => simp [hhdr] at hok
    | ok hdr =>
      simp only [hhdr] at hok
      cases hsc : c.state_call m [] (some h) with
      | error e => simp [hsc] at hok
      | ok resp =>
        simp only [hsc] at hok
        cases hdec : decodePair resp with
        | none => simp [hdec] at hok
        | some pr =>
          simp only [hdec, Except.ok.injEq] at hok
          subst hok
          exact ⟨h, hdr, resp, pr.1, pr.2, rfl, hhdr, hsc, hdec, rfl, rfl, by
            simp [read_client_state, hbf, hhdr, hsc, hdec]⟩


/-- Witness for C1, at the sample client. -/
theorem C1_read_client_state_witness :
    ∃ h hdr resp pn ph,
      sampleClient.best_finalized_header_hash = .ok h ∧
      sampleClient.header_by_hash h = .ok hdr ∧
      sampleClient.state_call "peer_header" [] (some h) = .ok resp ∧
      sampleDecodePair resp = some (pn, ph) ∧
      (⟨⟨100, 5⟩, ⟨8, 9⟩⟩ :
        ClientState (HeaderId Nat Nat) (HeaderId Nat Nat)).best_self = ⟨hdr.number, h⟩ ∧
      (⟨⟨100, 5⟩, ⟨8, 9⟩⟩ :
        ClientState (HeaderId Nat Nat) (HeaderId Nat Nat)).best_peer = ⟨pn, ph⟩ ∧
      (read_client_state sampleDecodePair sampleClient "peer_header").1 =
        [.bestFinalizedHeaderHash, .headerByHash h, .stateCall "peer_header" [] (some h)] :=
  C1_read_client_state sampleDecodePair sampleClient "peer_header" ⟨⟨100, 5⟩, ⟨8, 9⟩⟩ rfl

/-- C4: each of the two nonce lookups issues exactly one state call, with its
fixed method-name constant, the encoded lane id as the sole argument, at
exactly the given header id's hash; on success it returns the given header id
paired with the decoded nonce, and a response that fails to decode yields
`ResponseParseFailed`. -/
theorem C4_nonce_queries (s : SubstrateMessagesSource) (id : HeaderId Nat Nat) :
    ((s.latest_generated_nonce id).1 =
      [.stateCall s.lane.OUTBOUND_LANE_LATEST_GENERATED_NONCE_METHOD
        s.lane_id.encode (some id.hash)]) ∧
    ((s.latest_confirmed_received_nonce id).1 =
      [.stateCall s.lane.OUTBOUND_LANE_LATEST_RECEIVED_NONCE_METHOD
        s.lane_id.encode (some id.hash)]) ∧
    (∀ resp,
      s.client.state_call s.lane.OUTBOUND_LANE_LATEST_GENERATED_NONCE_METHOD
        s.lane_id.encode (some id.hash) = .ok resp →
      (∀ n, decode_u64 resp = some n →
        (s.latest_generated_nonce id).2 = .ok (id, n)) ∧
      (decode_u64 resp = none →
        (s.latest_generated_nonce id).2 = .error .ResponseParseFailed)) ∧
    (∀ resp,
      s.client.state_call s.lane.OUTBOUND_LANE_LATEST_RECEIVED_NONCE_METHOD
        s.lane_id.encode (some id.hash) = .ok resp →
      (∀ n, decode_u64 resp = some n →
        (s.latest_confirmed_received_nonce id).2 = .ok (id, n)) ∧
      (decode_u64 resp = none →
        (s.latest_confirmed_received_nonce id).2 = .error .ResponseParseFailed)) := by
  refine ⟨?_, ?_, ?_, ?_⟩
  · unfold SubstrateMessagesSource.latest_generated_nonce
    cases s.client.state_call s.lane.OUTBOUND_LANE_LATEST_GENERATED_NONCE_METHOD
        s.lane_id.encode (some id.hash) with
    | error e => rfl
    | ok resp => cases hd : decode_u64 resp <;> simp [hd]
  · unfold SubstrateMessagesSource.latest_confirmed_received_nonce
    cases s.client.state_call s.lane.OUTBOUND_LANE_LATEST_RECEIVED_NONCE_METHOD
        s.lane_id.encode (some id.hash) with
    | error e => rfl
    | ok resp => cases hd : decode_u64 resp <;> simp [hd]
  · intro resp hresp
    constructor
    · intro n hn
      unfold SubstrateMessagesSource.latest_generated_nonce
      simp [hresp, hn]
    · intro hn
      unfold SubstrateMessagesSource.latest_generated_nonce
      simp [hresp, hn]
  · intro resp hresp
    constructor
    · intro n hn
      unfold SubstrateMessagesSource.latest_confirmed_received_nonce
      simp [hresp, hn]
    · intro hn
      unfold SubstrateMessagesSource.latest_confirmed_received_nonce
      simp [hresp, hn]

/-- Witness for C4, at the sample source, whose node answers every state call
with the SCALE bytes of the nonce 1. -/
theorem C4_nonce_queries_witness :
    ((sampleSource.latest_generated_nonce ⟨10, 5⟩).1 =
      [.stateCall sampleSource.lane.OUTBOUND_LANE_LATEST_GENERATED_NONCE_METHOD
        sampleSource.lane_id.encode (some (5 : Nat))]) ∧
    ((sampleSource.latest_generated_nonce ⟨10, 5⟩).2 = .ok (⟨10, 5⟩, 1)) ∧
    ((sampleSource.latest_confirmed_received_nonce ⟨10, 5⟩).2 = .ok (⟨10, 5⟩, 1)) :=
  ⟨(C4_nonce_queries sampleSource ⟨10, 5⟩).1,
    ((C4_nonce_queries sampleSource ⟨10, 5⟩).2.2.1
      [1, 0, 0, 0, 0, 0, 0, 0] rfl).1 1 rfl,
    ((C4_nonce_queries sampleSource ⟨10, 5⟩).2.2.2
      [1, 0, 0, 0, 0, 0, 0, 0] rfl).1 1 rfl⟩

/-- The `weights_loop` succeeds when the nonces are consecutive from the
expected start, appending the pairs to the accumulated map. -/
theorem weights_loop_ok (l : List (Nat × Nat)) :
    ∀ n acc, l.map Prod.fst = List.range' n l.length →
      weights_loop n acc l = .ok (acc ++ l) := by
  induction l with
  | nil => intro n acc _; simp [weights_loop]
  | cons p rest ih =>
    intro n acc hmap
    obtain ⟨p1, p2⟩ := p
    simp only [List.map_cons, List.length_cons, List.range'_succ,
      List.cons.injEq] at hmap
    obtain ⟨h1, h2⟩ := hmap
    subst h1
    unfold weights_loop
    rw [if_neg (by simp)]
    rw [ih (p1 + 1) (acc ++ [(p1, p2)]) h2]
    simp

/-- The `weights_loop` succeeds exactly when the nonces are consecutive from
the expected start; a skipped, repeated or out-of-order nonce yields an
error. -/
theorem weights_loop_isOk (l : List (Nat × Nat)) :
    ∀ n acc, (∃ w, weights_loop n acc l = .ok w) ↔
      l.map Prod.fst = List.range' n l.length := by
  induction l with
  | nil => intro n acc; simp [weights_loop]
  | cons p rest ih =>
    intro n acc
    obtain ⟨p1, p2⟩ := p
    constructor
    · intro hex
      obtain ⟨w, hw⟩ := hex
      unfold weights_loop at hw
      by_cases hp : p1 = n
      · subst hp
        rw [if_neg (by simp)] at hw
        have hrest := (ih (p1 + 1) (acc ++ [(p1, p2)])).mp ⟨w, hw⟩
        simp [List.range'_succ, hrest]
      · rw [if_pos hp] at hw
        simp at hw
    · intro hmap
      exact ⟨acc ++ (p1, p2) :: rest, weights_loop_ok _ _ _ hmap⟩

/-- C10: given the node's response and its decoded (nonce, weight) pairs,
`generated_messages_weights` returns a weights map exactly when the nonces
form the consecutive increasing sequence starting at the requested range's
start, in which case the map is those pairs; otherwise the whole call returns
an error. -/
theorem C10_generated_messages_weights
    (decodeWeights : Bytes → Option (List (Nat × Nat)))
    (s : SubstrateMessagesSource) (id : HeaderId Nat Nat) (nb nfin : Nat)
    (resp : Bytes) (pairs : List (Nat × Nat))
    (hresp : s.client.state_call s.lane.OUTBOUND_LANE_MESSAGES_DISPATCH_WEIGHT_METHOD
      (s.lane_id.encode ++ encode_u64 nb ++ encode_u64 nfin)
      (some id.hash) = .ok resp)
    (hdec : decodeWeights resp = some pairs) :
    ((∃ w, (s.generated_messages_weights decodeWeights id nb nfin).2 = .ok w) ↔
      pairs.map Prod.fst = List.range' nb pairs.length) ∧
    (pairs.map Prod.fst = List.range' nb pairs.length →
      (s.generated_messages_weights decodeWeights id nb nfin).2 = .ok pairs) := by
  unfold SubstrateMessagesSource.generated_messages_weights
  simp only [hresp, hdec]
  constructor
  · simpa using weights_loop_isOk pairs nb []
  · intro hmap
    simpa using weights_loop_ok pairs nb [] hmap

/-- Witness for C10, at the sample source: the decoded pairs are
`[(1, 1), (2, 0)]`, whose nonces are consecutive from 1, so the call returns
exactly that map. -/
theorem C10_generated_messages_weights_witness :
    ((∃ w, (sampleSource.generated_messages_weights sampleDecodeWeights
        ⟨10, 5⟩ 1 2).2 = .ok w) ↔
      ([(1, 1), (2, 0)] : List (Nat × Nat)).map Prod.fst =
        List.range' 1 ([(1, 1), (2, 0)] : List (Nat × Nat)).length) ∧
    (([(1, 1), (2, 0)] : List (Nat × Nat)).map Prod.fst =
        List.range' 1 ([(1, 1), (2, 0)] : List (Nat × Nat)).length →
      (sampleSource.generated_messages_weights sampleDecodeWeights
        ⟨10, 5⟩ 1 2).2 = .ok [(1, 1), (2, 0)]) :=
  C10_generated_messages_weights sampleDecodeWeights sampleSource
    ⟨10, 5⟩ 1 2 [1, 0, 0, 0, 0, 0, 0, 0] [(1, 1), (2, 0)] rfl rfl

/-- C8: for every non-empty validator list and every session index,
`select_validators` returns exactly `max 1 (2 * n / 3)` validators, namely the
contiguous cyclic window of the list of that length starting at position
`session_index % n` (expressed as a window of the doubled list). -/
theorem C8_select_validators {α : Type} (si : Nat) (avail : List α)
    (h : avail ≠ []) :
    select_validators si avail =
      ((avail ++ avail).drop (si % avail.length)).take
        (max 1 (2 * avail.length / 3)) ∧
    (select_validators si avail).length = max 1 (2 * avail.length / 3) := by
  have hn : 0 < avail.length := List.length_pos.mpr h
  have h23 : 2 * avail.length / 3 ≤ avail.length := by omega
  have hcount : max 1 (2 * avail.length / 3) ≤ avail.length :=
    Nat.max_le.mpr ⟨hn, h23⟩
  have hoff : si % avail.length < avail.length := Nat.mod_lt _ hn
  have hdroplen : (avail.drop (si % avail.length)).length =
      avail.length - si % avail.length := List.length_drop _ _
  have hwin : ((avail ++ avail).drop (si % avail.length)).take
        (max 1 (2 * avail.length / 3)) =
      (avail.drop (si % avail.length)).take (max 1 (2 * avail.length / 3)) ++
        avail.take (max 1 (2 * avail.length / 3) -
          (avail.length - si % avail.length)) := by
    rw [List.drop_append_eq_append_drop, List.take_append_eq_append_take]
    have hz : si % avail.length - avail.length = 0 := by omega
    rw [hz, List.drop_zero, hdroplen]
  have hmain : select_validators si avail =
      ((avail ++ avail).drop (si % avail.length)).take
        (max 1 (2 * avail.length / 3)) := by
    rw [hwin]
    simp only [select_validators]
    split
    · next hcond =>
      obtain ⟨hc1, hc2⟩ := hcond
      have heq : si % avail.length + max 1 (2 * avail.length / 3) - avail.length =
          max 1 (2 * avail.length / 3) - (avail.length - si % avail.length) := by
        omega
      have hfull : (avail.drop (si % avail.length)).take
            (max 1 (2 * avail.length / 3)) = avail.drop (si % avail.length) :=
        List.take_of_length_le (by rw [List.length_drop]; omega)
      rw [heq, hfull]
    · next hcond =>
      have hz2 : max 1 (2 * avail.length / 3) -
          (avail.length - si % avail.length) = 0 := by omega
      rw [hz2]
      simp
  refine ⟨hmain, ?_⟩
  rw [hmain, List.length_take, List.length_drop, List.length_append]
  omega

/-- Witness for C8, at session 3 over five validators (the wrapping case of
the upstream unit test). -/
theorem C8_select_validators_witness :
    select_validators 3 [1, 2, 3, 4, 5] =
      ((([1, 2, 3, 4, 5] : List Nat) ++ [1, 2, 3, 4, 5]).drop
        (3 % ([1, 2, 3, 4, 5] : List Nat).length)).take
        (max 1 (2 * ([1, 2, 3, 4, 5] : List Nat).length / 3)) ∧
    (select_validators 3 [(1 : Nat), 2, 3, 4, 5]).length =
      max 1 (2 * ([1, 2, 3, 4, 5] : List Nat).length / 3) :=
  C8_select_validators 3 [1, 2, 3, 4, 5] (by simp)

/-- C9: `new_session` returns `None` for session indices 0 and 1 (leaving the
storage untouched); for indices >= 2 it returns the selection from the stored
initial validator set (falling back to, and storing, the current session
validators only when nothing is stored yet); an already-written
`InitialValidators` item is never overwritten. -/
theorem C9_new_session {α : Type} (cur : List α) (stored : Option (List α))
    (si : Nat) :
    (si = 0 ∨ si = 1 → new_session cur stored si = (none, stored)) ∧
    (2 ≤ si →
      (new_session cur stored si).1 =
        some (select_validators si (stored.getD cur)) ∧
      (new_session cur stored si).2 = some (stored.getD cur)) ∧
    (∀ v, stored = some v → (new_session cur stored si).2 = some v) := by
  refine ⟨?_, ?_, ?_⟩
  · intro hsi
    unfold new_session
    rw [if_pos hsi]
  · intro hsi
    unfold new_session
    rw [if_neg (by omega)]
    cases stored with
    | none => exact ⟨rfl, rfl⟩
    | some v => exact ⟨rfl, rfl⟩
  · intro v hv
    subst hv
    unfold new_session
    by_cases hsi : si = 0 ∨ si = 1
    · rw [if_pos hsi]
    · rw [if_neg hsi]

/-- Witness for C9: session 0 elects nothing and writes nothing; a stored
initial set survives a later session. -/
theorem C9_new_session_witness :
    new_session [1, 2, 3] (none : Option (List Nat)) 0 = (none, none) ∧
    (new_session [1, 2, 3] (some [4, 5, 6]) 5).2 = some [4, 5, 6] :=
  ⟨(C9_new_session [1, 2, 3] none 0).1 (Or.inl rfl),
    (C9_new_session [1, 2, 3] (some [4, 5, 6]) 5).2.2 [4, 5, 6] rfl⟩

/-- The lane-id order is transitive. -/
theorem LaneId.lt_trans {a b c : LaneId} (h1 : LaneId.lt a b)
    (h2 : LaneId.lt b c) : LaneId.lt a c := by
  cases a; cases b; cases c
  simp only [LaneId.lt] at *
  omega

/-- The lane-id order is irreflexive. -/
theorem LaneId.lt_irrefl (a : LaneId) : ¬ LaneId.lt a a := by
  cases a
  simp only [LaneId.lt]
  omega

/-- The lane-id order is total: unequal, not-smaller lane ids are larger. -/
theorem LaneId.lt_of_not (a b : LaneId) (hne : ¬ a = b)
    (hnlt : ¬ LaneId.lt a b) : LaneId.lt b a := by
  cases a; cases b
  simp only [LaneId.lt, LaneId.mk.injEq] at *
  omega

/-- Entries of `addToLane m xs` either carry the new message's lane id or a
key already present in `xs`. -/
theorem addToLane_keys (m : Message) (xs : List (LaneId × ProvedLaneMessages)) :
    ∀ kv ∈ addToLane m xs, kv.1 = m.key.lane_id ∨ ∃ kv2 ∈ xs, kv2.1 = kv.1 := by
  induction xs with
  | nil =>
    intro kv hkv
    simp only [addToLane, List.mem_singleton] at hkv
    subst hkv
    exact Or.inl rfl
  | cons hd rest ih =>
    intro kv hkv
    obtain ⟨l, plm⟩ := hd
    simp only [addToLane] at hkv
    by_cases h1 : m.key.lane_id = l
    · rw [if_pos h1] at hkv
      rcases List.mem_cons.mp hkv with h | h
      · subst h
        exact Or.inr ⟨(l, plm), List.mem_cons_self _ _, rfl⟩
      · exact Or.inr ⟨kv, List.mem_cons_of_mem _ h, rfl⟩
    · rw [if_neg h1] at hkv
      by_cases h2 : LaneId.lt m.key.lane_id l
      · rw [if_pos h2] at hkv
        rcases List.mem_cons.mp hkv with h | h
        · subst h
          exact Or.inl rfl
        · exact Or.inr ⟨kv, h, rfl⟩
      · rw [if_neg h2] at hkv
        rcases List.mem_cons.mp hkv with h | h
        · subst h
          exact Or.inr ⟨(l, plm), List.mem_cons_self _ _, rfl⟩
        · rcases ih kv h with h3 | ⟨kv2, hkv2, hkey⟩
          · exact Or.inl h3
          · exact Or.inr ⟨kv2, List.mem_cons_of_mem _ hkv2, hkey⟩

/-- `addToLane` preserves strictly sorted keys. -/
theorem addToLane_sorted (m : Message) :
    ∀ xs, SortedKeys xs → SortedKeys (addToLane m xs) := by
  intro xs
  induction xs with
  | nil =>
    intro _
    simp only [addToLane]
    exact List.pairwise_cons.mpr ⟨by simp, List.Pairwise.nil⟩
  | cons hd rest ih =>
    intro hs
    obtain ⟨l, plm⟩ := hd
    obtain ⟨hhead, htail⟩ := List.pairwise_cons.mp hs
    simp only [addToLane]
    by_cases h1 : m.key.lane_id = l
    · rw [if_pos h1]
      exact List.pairwise_cons.mpr ⟨fun b hb => hhead b hb, htail⟩
    · rw [if_neg h1]
      by_cases h2 : LaneId.lt m.key.lane_id l
      · rw [if_pos h2]
        refine List.pairwise_cons.mpr ⟨?_, List.pairwise_cons.mpr ⟨hhead, htail⟩⟩
        intro b hb
        rcases List.mem_cons.mp hb with h | h
        · subst h
          exact h2
        · exact LaneId.lt_trans h2 (hhead b h)
      · rw [if_neg h2]
        have hlm : LaneId.lt l m.key.lane_id := LaneId.lt_of_not _ _ h1 h2
        refine List.pairwise_cons.mpr ⟨?_, ih htail⟩
        intro b hb
        rcases addToLane_keys m rest b hb with h | ⟨kv2, hkv2, hkey⟩
        · rw [h]
          exact hlm
        · rw [← hkey]
          exact hhead kv2 hkv2

/-- Keys absent from an association list look up to `none`. -/
theorem lookupLane_eq_none (l : LaneId) :
    ∀ xs : List (LaneId × ProvedLaneMessages),
      (∀ kv ∈ xs, ¬ kv.1 = l) → lookupLane l xs = none := by
  intro xs
  induction xs with
  | nil => intro _; rfl
  | cons hd rest ih =>
    intro hne
    obtain ⟨k, v⟩ := hd
    simp only [lookupLane]
    rw [if_neg (hne (k, v) (List.mem_cons_self _ _))]
    exact ih fun kv hkv => hne kv (List.mem_cons_of_mem _ hkv)

/-- A successful lookup's key occurs in the list. -/
theorem lookupLane_mem (l : LaneId) :
    ∀ xs w, lookupLane l xs = some w → ∃ kv ∈ xs, kv.1 = l := by
  intro xs
  induction xs with
  | nil => intro w hw; simp [lookupLane] at hw
  | cons hd rest ih =>
    intro w hw
    obtain ⟨k, v⟩ := hd
    simp only [lookupLane] at hw
    by_cases hk : k = l
    · exact ⟨(k, v), List.mem_cons_self _ _, hk⟩
    · rw [if_neg hk] at hw
      obtain ⟨kv, hkv, hkey⟩ := ih w hw
      exact ⟨kv, List.mem_cons_of_mem _ hkv, hkey⟩

/-- Smaller lane ids are unequal. -/
theorem LaneId.lt_ne {a b : LaneId} (h : LaneId.lt a b) : ¬ a = b := by
  intro hh
  subst hh
  exact LaneId.lt_irrefl _ h

/-- Larger lane ids are unequal. -/
theorem LaneId.lt_ne_symm {a b : LaneId} (h : LaneId.lt a b) : ¬ b = a := by
  intro hh
  subst hh
  exact LaneId.lt_irrefl _ h

/-- Looking up through `addToLane` on a sorted map: the message's lane gains
the message at the end of its entry, every other lane is untouched. -/
theorem lookupLane_addToLane (m : Message) (l : LaneId) :
    ∀ xs, SortedKeys xs →
      lookupLane l (addToLane m xs) =
        if m.key.lane_id = l then some (pushLane (lookupLane l xs) m)
        else lookupLane l xs := by
  intro xs
  induction xs with
  | nil =>
    intro _
    simp only [addToLane, lookupLane]
    by_cases h : m.key.lane_id = l
    · rw [if_pos h, if_pos h]
      rfl
    · rw [if_neg h, if_neg h]
  | cons hd rest ih =>
    intro hs
    obtain ⟨k, v⟩ := hd
    obtain ⟨hhead, htail⟩ := List.pairwise_cons.mp hs
    simp only [addToLane]
    by_cases h1 : m.key.lane_id = k
    · rw [if_pos h1]
      simp only [lookupLane]
      by_cases h2 : k = l
      · rw [if_pos h2, if_pos (h1.trans h2), if_pos h2]
        rfl
      · rw [if_neg h2, if_neg (fun hh => h2 (h1.symm.trans hh)), if_neg h2]
    · rw [if_neg h1]
      by_cases h2 : LaneId.lt m.key.lane_id k
      · rw [if_pos h2]
        simp only [lookupLane]
        by_cases h3 : m.key.lane_id = l
        · have h2l : LaneId.lt l k := by
            rw [← h3]
            exact h2
          rw [if_pos h3, if_pos h3]
          have hnone : (if k = l then some v else lookupLane l rest) = none := by
            rw [if_neg (LaneId.lt_ne_symm h2l)]
            refine lookupLane_eq_none l rest ?_
            intro kv hkv
            exact LaneId.lt_ne_symm (LaneId.lt_trans h2l (hhead kv hkv))
          rw [hnone]
          rfl
        · rw [if_neg h3, if_neg h3]
      · rw [if_neg h2]
        have hkm : LaneId.lt k m.key.lane_id := LaneId.lt_of_not _ _ h1 h2
        simp only [lookupLane]
        by_cases h3 : k = l
        · have hlm : LaneId.lt l m.key.lane_id := by
            rw [← h3]
            exact hkm
          rw [if_pos h3, if_neg (LaneId.lt_ne_symm hlm), if_pos h3]
        · rw [if_neg h3, ih htail, if_neg h3]

/-- `extendLane` with no messages is the identity. -/
theorem extendLane_nil (o : Option ProvedLaneMessages) : extendLane o [] = o := by
  cases o with
  | none => rfl
  | some plm => simp [extendLane]

/-- Pushing one message then extending equals extending with the message in
front. -/
theorem extendLane_push (o : Option ProvedLaneMessages) (m : Message)
    (ms : List Message) :
    extendLane (some (pushLane o m)) ms = extendLane o (m :: ms) := by
  cases o with
  | none => simp [extendLane, pushLane]
  | some plm => simp [extendLane, pushLane]

/-- Folding messages into a sorted lane map: each lane's entry accumulates
exactly that lane's messages, in input order. -/
theorem lookupLane_foldl (l : LaneId) :
    ∀ (msgs : List Message) (acc : List (LaneId × ProvedLaneMessages)),
      SortedKeys acc →
      lookupLane l (msgs.foldl (fun a m => addToLane m a) acc) =
        extendLane (lookupLane l acc)
          (msgs.filter (fun m => m.key.lane_id = l)) := by
  intro msgs
  induction msgs with
  | nil =>
    intro acc _
    rw [List.foldl_nil, List.filter_nil, extendLane_nil]
  | cons m rest ih =>
    intro acc hacc
    rw [List.foldl_cons, ih (addToLane m acc) (addToLane_sorted m acc hacc),
      lookupLane_addToLane m l acc hacc]
    by_cases hm : m.key.lane_id = l
    · rw [if_pos hm, extendLane_push, List.filter_cons_of_pos (by simpa using hm)]
    · rw [if_neg hm, List.filter_cons_of_neg (by simpa using hm)]

/-- Lookup after a `BTreeMap` insert: the inserted key maps to the new value,
every other key is untouched. -/
theorem lookupLane_btreeInsert (k : LaneId) (v : ProvedLaneMessages)
    (l : LaneId) :
    ∀ xs, lookupLane l (btreeInsert k v xs) =
      if k = l then some v else lookupLane l xs := by
  intro xs
  induction xs with
  | nil => simp only [btreeInsert, lookupLane]
  | cons hd rest ih =>
    obtain ⟨k2, v2⟩ := hd
    simp only [btreeInsert]
    by_cases h1 : k = k2
    · subst h1
      rw [if_pos rfl]
      simp only [lookupLane]
      by_cases hkl : k = l
      · rw [if_pos hkl, if_pos hkl]
      · rw [if_neg hkl, if_neg hkl, if_neg hkl]
    · rw [if_neg h1]
      by_cases h2 : LaneId.lt k k2
      · rw [if_pos h2]
        simp only [lookupLane]
      · rw [if_neg h2]
        simp only [lookupLane]
        by_cases h3 : k2 = l
        · have hkl : ¬ k = l := fun hh => h1 (hh.trans h3.symm)
          rw [if_pos h3, if_neg hkl, if_pos h3]
        · rw [if_neg h3, ih, if_neg h3]

/-- Collecting pairs into a `BTreeMap` left to right: a key maps to the value
of its last occurrence, falling back to the accumulator. -/
theorem lookupLane_foldl_btreeInsert (l : LaneId) :
    ∀ (xs acc : List (LaneId × ProvedLaneMessages)),
      lookupLane l (xs.foldl (fun a kv => btreeInsert kv.1 kv.2 a) acc) =
        match lookupLaneR l xs with
        | some w => some w
        | none => lookupLane l acc := by
  intro xs
  induction xs with
  | nil => intro acc; rfl
  | cons p rest ih =>
    intro acc
    obtain ⟨k, v⟩ := p
    rw [List.foldl_cons, ih (btreeInsert k v acc)]
    simp only [lookupLaneR]
    cases hR : lookupLaneR l rest with
    | some w => rfl
    | none =>
      rw [lookupLane_btreeInsert]
      by_cases hk : k = l
      · simp [hk]
      · simp [hk]

/-- On a sorted map the rightmost and leftmost lookups agree. -/
theorem lookupLaneR_eq (l : LaneId) :
    ∀ xs, SortedKeys xs → lookupLaneR l xs = lookupLane l xs := by
  intro xs
  induction xs with
  | nil => intro _; rfl
  | cons p rest ih =>
    intro hs
    obtain ⟨k, v⟩ := p
    obtain ⟨hhead, htail⟩ := List.pairwise_cons.mp hs
    simp only [lookupLaneR, lookupLane]
    rw [ih htail]
    cases hL : lookupLane l rest with
    | some w =>
      obtain ⟨kv, hkv, hkey⟩ := lookupLane_mem l rest w hL
      have hkl : LaneId.lt k l := by
        rw [← hkey]
        exact hhead kv hkv
      simp [LaneId.lt_ne hkl]
    | none => rfl

/-- The lane grouping of the mock proof construction has sorted keys. -/
theorem groupByLane_sorted (msgs : List Message) :
    SortedKeys (groupByLane msgs) := by
  have hgen : ∀ acc, SortedKeys acc →
      SortedKeys (msgs.foldl (fun a m => addToLane m a) acc) := by
    induction msgs with
    | nil => intro acc h; simpa using h
    | cons m rest ih =>
      intro acc h
      rw [List.foldl_cons]
      exact ih (addToLane m acc) (addToLane_sorted m acc h)
  exact hgen [] List.Pairwise.nil

/-- C6: the test source-header-chain policy's `verify_messages_proof` returns
proved messages exactly when the proof's embedded result is `Ok`: a proof
built from `Ok` messages verifies to exactly those messages grouped per lane
with per-lane order preserved, and a proof whose embedded result is `Err`
yields the test error and no messages. -/
theorem C6_verify_messages_proof :
    (∀ msgs : List Message, ∃ pm,
      TestSourceHeaderChain.verify_messages_proof
        (testMessagesProofFrom (.ok msgs)) = .ok pm ∧
      ∀ l, lookupLane l pm =
        extendLane none (msgs.filter (fun m => m.key.lane_id = l))) ∧
    (∀ p : TestMessagesProof, (∃ e, p.result = .error e) →
      TestSourceHeaderChain.verify_messages_proof p = .error TEST_ERROR) := by
  constructor
  · intro msgs
    refine ⟨btreeFromList (groupByLane msgs), rfl, ?_⟩
    intro l
    have hsorted : SortedKeys (groupByLane msgs) := groupByLane_sorted msgs
    have h1 := lookupLane_foldl_btreeInsert l (groupByLane msgs) []
    have h2 : lookupLane l (groupByLane msgs) =
        extendLane (lookupLane l ([] : List (LaneId × ProvedLaneMessages)))
          (msgs.filter (fun m => m.key.lane_id = l)) :=
      lookupLane_foldl l msgs [] List.Pairwise.nil
    rw [btreeFromList, h1, lookupLaneR_eq l (groupByLane msgs) hsorted]
    cases hG : lookupLane l (groupByLane msgs) with
    | some w =>
      rw [hG] at h2
      exact h2
    | none =>
      rw [hG] at h2
      exact h2
  · intro p hp
    obtain ⟨e, he⟩ := hp
    unfold TestSourceHeaderChain.verify_messages_proof
    rw [he]

/-- Witness for C6, at two sample messages on the test lane and the failing
proof. -/
theorem C6_verify_messages_proof_witness :
    (∃ pm, TestSourceHeaderChain.verify_messages_proof
        (testMessagesProofFrom (.ok sampleMessages)) = .ok pm ∧
      ∀ l, lookupLane l pm =
        extendLane none (sampleMessages.filter (fun m => m.key.lane_id = l))) ∧
    TestSourceHeaderChain.verify_messages_proof ⟨.error ()⟩ = .error TEST_ERROR :=
  ⟨C6_verify_messages_proof.1 sampleMessages,
    C6_verify_messages_proof.2 ⟨.error ()⟩ ⟨(), rfl⟩⟩
